import Mathlib

/-!
Shallow embedding of the Cumulocity runtime widget loader
(`RuntimeWidgetLoaderService` and the pieces of
`RuntimeWidgetInstallerService` it uses).

External collaborators (fetch client, inventory service, webpack module
loader, angular compiler) are modelled as fields of an `Env` record that
fixes the outcome of every fallible operation; `loadRuntimeWidgets`
becomes a pure function from `Env` to a result record carrying an event
trace, the final `widgetFactories` table, the host-registry additions and
the persisted runtime-context update.
-/

namespace RuntimeWidgetLoader

/-- One entry of the list returned by `/application/applicationsByUser`. -/
structure Application where
  id : String
  contextPath : String
  availability : String
  widgetContextPaths : Option (List String)
  deriving Repr, DecidableEq

/-- One inventory record of type `app_runtimeContext` (`IAppRuntimeContext`). -/
structure RuntimeContextRec where
  id : String
  appId : String
  widgetContextPaths : Option (List String)
  deriving Repr, DecidableEq

/-- A `DynamicComponentDefinition` as far as `loadWidget` observes it:
its id, whether it declares a `configComponent`, and whether
`resolveComponentFactory` succeeds on its `component` / `configComponent`. -/
structure WidgetDef where
  id : String
  hasConfig : Bool
  componentOk : Bool
  configOk : Bool
  deriving Repr, DecidableEq

/-- `HOOK_COMPONENTS` yields a list whose members are either a single
definition or an array of definitions. -/
inductive WGroup where
  | one : WidgetDef → WGroup
  | many : List WidgetDef → WGroup
  deriving Repr, DecidableEq

/-- A created `NgModuleRef`: an identity for its injector plus the
component definitions its `HOOK_COMPONENTS` token provides. -/
structure ModuleInstance where
  moduleId : Nat
  widgets : List WGroup
  deriving Repr, DecidableEq

/-- One exported value of an imported js module: whether the
`__annotations__` scan classifies it as an `NgModule`, and the result of
`compileModuleAsync` + `create` (none models a thrown exception). -/
structure ExportedObj where
  isNgModule : Bool
  compileResult : Option ModuleInstance
  deriving Repr, DecidableEq

/-- An imported entry module: exported name to exported value, in
`Object.keys` order. -/
abbrev JsModule := List (String × ExportedObj)

/-- The external world as `loadRuntimeWidgets` observes it. -/
structure Env where
  currentContextPath : String
  appList : List Application
  runtimeContexts : List RuntimeContextRec
  manifestOk : String → Bool
  entryImport : String → Option JsModule

/-- Observable events of one service run, in program order. -/
inductive Event where
  | progressText (msg : String)
  | progress (counter total : Nat)
  | manifestImport (cp : String) (ok : Bool)
  | entryImport (cp : String) (ok : Bool)
  | consoleError (tag cp : String)
  | alertDanger (msg : String)
  | extractScan (cp key : String) (qualifies : Bool)
  | activate (cp key : String) (ok : Bool)
  | staticRegistryNonempty
  | loadWidgetCall (id : String)
  | progressClose
  | setLoaded (b : Bool)
  | inventoryUpdate (id : String) (paths : List String)
  deriving Repr, DecidableEq

def msgLoading : String := "Please wait! Loading..."

def msgStillWorking : String := "Please wait! Still Working..."

def msgAlmostReady : String := "Please wait! Almost ready..."

def dangerMsgA : String :=
  "Failed to load a runtime custom widget, it may have been compiled for a different Cumulocity version."

def dangerMsgB : String :=
  "Failed to load runtime custom widget, it may have been compiled for a different Cumulocity version."

/-- `new BehaviorSubject(false)`: the initial value of `isLoaded$`. -/
def isLoadedInit : Bool := false

/-- The accumulator step of `Array.from(new Set([...]))`: keep the first
occurrence of each element, in insertion order. -/
def jsSetInsert (acc : List String) (x : String) : List String :=
  if x ∈ acc then acc else acc ++ [x]

/-- `Array.from(new Set(l))`: first-occurrence deduplication. -/
def jsSetDedup (l : List String) : List String :=
  l.foldl jsSetInsert []

/-- The entry stored in the `widgetFactories` map for one definition:
which definition and which module's `componentFactoryResolver` and
`injector` it was built from, and whether a config factory was built. -/
structure FactoryEntry where
  srcWidget : WidgetDef
  srcModule : Nat
  hasConfigFactory : Bool
  deriving Repr, DecidableEq

/-- JS `Map.prototype.set`: replace the entry under an existing key
(keys of a `Map` are unique), otherwise append in insertion order. -/
def mapSet : List (String × FactoryEntry) → String → FactoryEntry →
    List (String × FactoryEntry)
  | [], k, v => [(k, v)]
  | p :: rest, k, v => if p.1 == k then (k, v) :: rest else p :: mapSet rest k v

/-- JS `Map.prototype.get`. -/
def mapGet (m : List (String × FactoryEntry)) (k : String) : Option FactoryEntry :=
  (m.find? (fun p => p.1 == k)).map (fun p => p.2)

/-- The state mutated by `loadWidget`: the service's `widgetFactories`
map and the definitions pushed into the host registry via
`dynamicComponentService.add` (each recorded with its module id; all of
them carry `isRuntimeLoaded = true`). -/
structure RegState where
  factories : List (String × FactoryEntry)
  hostRegistry : List (String × Nat)
  deriving Repr, DecidableEq

def RegState.init : RegState := ⟨[], []⟩

/-- `RuntimeWidgetLoaderService#loadWidget` for one definition.
It first resolves the component factory, then (only when a
`configComponent` is declared) the config factory, then writes the
`widgetFactories` entry and finally calls `dynamicComponentService.add`;
a throw anywhere in the `try` is caught and logged, leaving both stores
untouched. -/
def loadWidget (modId : Nat) (w : WidgetDef) (st : RegState) : List Event × RegState :=
  if w.componentOk && (!w.hasConfig || w.configOk) then
    ([Event.loadWidgetCall w.id],
      { factories := mapSet st.factories w.id ⟨w, modId, w.hasConfig⟩,
        hostRegistry := st.hostRegistry ++ [(w.id, modId)] })
  else
    ([Event.loadWidgetCall w.id, Event.consoleError "loadWidget" w.id,
      Event.alertDanger dangerMsgB], st)

/-- The outcome of the per-identifier manifest/import loop. -/
structure ImportOut where
  trace : List Event
  counter : Nat
  jsModules : List (String × JsModule)
  cleanup : List String
  deriving Repr

/-- One iteration of the `for (const contextPath of contextPaths)` loop:
skip falsy identifiers; otherwise bump the counter, update the progress
alert, attempt the manifest import (on failure either log to the console
when a known application still has this context path, or push the
identifier onto the cleanup list), then attempt the interleaved
entry-module load (on failure log and surface a danger alert). -/
def importStep (env : Env) (total counter : Nat) (cp : String) : ImportOut :=
  if cp = "" then ⟨[], counter, [], []⟩
  else
    let c := counter + 1
    if env.manifestOk cp then
      match env.entryImport cp with
      | some m =>
        ⟨[Event.progress c total, Event.manifestImport cp true, Event.entryImport cp true],
          c, [(cp, m)], []⟩
      | none =>
        ⟨[Event.progress c total, Event.manifestImport cp true, Event.entryImport cp false,
          Event.consoleError "module" cp, Event.alertDanger dangerMsgA], c, [], []⟩
    else
      if env.appList.any (fun a => a.contextPath == cp) then
        ⟨[Event.progress c total, Event.manifestImport cp false,
          Event.consoleError "manifest" cp], c, [], []⟩
      else
        ⟨[Event.progress c total, Event.manifestImport cp false], c, [], [cp]⟩

/-- The whole manifest/import loop, sequential over the identifier list. -/
def importPhase (env : Env) (total : Nat) : Nat → List String → ImportOut
  | counter, [] => ⟨[], counter, [], []⟩
  | counter, cp :: rest =>
    let s := importStep env total counter cp
    let r := importPhase env total s.counter rest
    ⟨s.trace ++ r.trace, r.counter, s.jsModules ++ r.jsModules, s.cleanup ++ r.cleanup⟩

/-- Scan of one exported value: run the `__annotations__` predicate and,
when it qualifies, compile and create the module (logging and surfacing
a danger alert when that throws). -/
def extractObj (cp key : String) (obj : ExportedObj) : List Event × List ModuleInstance :=
  if obj.isNgModule then
    match obj.compileResult with
    | some inst =>
      ([Event.extractScan cp key true, Event.activate cp key true], [inst])
    | none =>
      ([Event.extractScan cp key true, Event.activate cp key false,
        Event.consoleError "compile" cp, Event.alertDanger dangerMsgB], [])
  else
    ([Event.extractScan cp key false], [])

/-- Scan of all exported values of one imported module, in key order. -/
def extractModule (cp : String) : JsModule → List Event × List ModuleInstance
  | [] => ([], [])
  | (key, obj) :: rest =>
    let a := extractObj cp key obj
    let b := extractModule cp rest
    (a.1 ++ b.1, a.2 ++ b.2)

/-- The `for (const jsModule of jsModules)` loop: extraction and
activation over every successfully imported module, after the
whole manifest/entry loop has finished. -/
def extractPhase : List (String × JsModule) → List Event × List ModuleInstance
  | [] => ([], [])
  | (cp, m) :: rest =>
    let a := extractModule cp m
    let b := extractPhase rest
    (a.1 ++ b.1, a.2 ++ b.2)

/-- `HOOK_COMPONENTS` delivers single definitions and arrays of
definitions; the registration loop walks arrays element-wise. -/
def flattenGroups : List WGroup → List WidgetDef
  | [] => []
  | WGroup.one w :: rest => w :: flattenGroups rest
  | WGroup.many ws :: rest => ws ++ flattenGroups rest

/-- Feed each definition of one module through `loadWidget`, in order. -/
def registerWidgets (modId : Nat) : List WidgetDef → RegState → List Event × RegState
  | [], st => ([], st)
  | w :: rest, st =>
    let a := loadWidget modId w st
    let b := registerWidgets modId rest a.2
    (a.1 ++ b.1, b.2)

/-- The registration loop over every activated module. -/
def registerPhase : List ModuleInstance → RegState → List Event × RegState
  | [], st => ([], st)
  | inst :: rest, st =>
    let a := registerWidgets inst.moduleId (flattenGroups inst.widgets) st
    let b := registerPhase rest a.2
    (a.1 ++ b.1, b.2)

/-- The `cleanupWidgetContextPath.forEach` loop: splice out the first
occurrence of each cleanup identifier from the runtime-context list,
remembering whether anything was actually removed. -/
def spliceAll : List String → List String → List String × Bool
  | ps, [] => (ps, false)
  | ps, cp :: rest =>
    if cp ∈ ps then ((spliceAll (ps.erase cp) rest).1, true)
    else spliceAll ps rest

/-- Stale-identifier cleanup: only when the runtime-context record
exists, has a `widgetContextPaths` list, and at least one splice hit, is
a single atomic inventory update issued with the new list. -/
def cleanupPhase (rtc : Option RuntimeContextRec) (cleanup : List String) :
    List Event × Option (String × List String) :=
  match rtc with
  | none => ([], none)
  | some r =>
    match r.widgetContextPaths with
    | none => ([], none)
    | some ps =>
      match spliceAll ps cleanup with
      | (newPaths, true) => ([Event.inventoryUpdate r.id newPaths], some (r.id, newPaths))
      | (_, false) => ([], none)

/-- Resolution of the current application: first an application whose
context path matches the URL's and whose availability is `PRIVATE`,
then any application matching the context path. -/
def resolveApp (env : Env) : Option Application :=
  match env.appList.find? (fun a =>
      a.contextPath == env.currentContextPath && a.availability == "PRIVATE") with
  | some a => some a
  | none => env.appList.find? (fun a => a.contextPath == env.currentContextPath)

inductive LoadError where
  | applicationNotFound
  deriving Repr, DecidableEq

/-- Everything one completed `loadRuntimeWidgets` run produced. -/
structure LoadResult where
  trace : List Event
  factories : List (String × FactoryEntry)
  hostRegistry : List (String × Nat)
  contextPaths : List String
  cleanup : List String
  rtcPaths : List String
  modules : List ModuleInstance
  update : Option (String × List String)
  isLoaded : Bool
  deriving Repr, DecidableEq

/-- The runtime-context record matching the resolved application
(`AppRuntimePathList.find(path => path.appId === app.id)`). -/
def runRtc (env : Env) (app : Application) : Option RuntimeContextRec :=
  env.runtimeContexts.find? (fun r => r.appId == app.id)

/-- The identifier list of that record (`[]` when absent). -/
def runRtcPaths (env : Env) (app : Application) : List String :=
  match runRtc env app with
  | some r => r.widgetContextPaths.getD []
  | none => []

/-- The resolved identifier set: `Array.from(new Set([...app paths,
...runtime-context paths]))`. -/
def runContextPaths (env : Env) (app : Application) : List String :=
  jsSetDedup (app.widgetContextPaths.getD [] ++ runRtcPaths env app)

/-- The import loop of one run. -/
def runImport (env : Env) (app : Application) : ImportOut :=
  importPhase env (runContextPaths env app).length 0 (runContextPaths env app)

/-- The extraction/activation loop of one run. -/
def runExtract (env : Env) (app : Application) : List Event × List ModuleInstance :=
  extractPhase (runImport env app).jsModules

/-- The registration loop of one run. -/
def runRegister (env : Env) (app : Application) : List Event × RegState :=
  registerPhase (runExtract env app).2 RegState.init

/-- The stale-identifier cleanup of one run. -/
def runCleanup (env : Env) (app : Application) :
    List Event × Option (String × List String) :=
  cleanupPhase (runRtc env app) (runImport env app).cleanup

/-- The body of `loadRuntimeWidgets` once the current application has
been resolved: identifier-set union, import loop, extraction and
activation loop, the wait on the host registry, the registration loop,
the load-complete signal and the stale-identifier cleanup, in program
order. -/
def loadRun (env : Env) (app : Application) : LoadResult :=
  { trace := Event.progressText msgLoading :: (runImport env app).trace
      ++ [Event.progressText msgStillWorking] ++ (runExtract env app).1
      ++ [Event.staticRegistryNonempty, Event.progressText msgAlmostReady]
      ++ (runRegister env app).1
      ++ [Event.progressClose, Event.setLoaded true] ++ (runCleanup env app).1,
    factories := (runRegister env app).2.factories,
    hostRegistry := (runRegister env app).2.hostRegistry,
    contextPaths := runContextPaths env app,
    cleanup := (runImport env app).cleanup,
    rtcPaths := runRtcPaths env app,
    modules := (runExtract env app).2,
    update := (runCleanup env app).2,
    isLoaded := true }

/-- `RuntimeWidgetLoaderService#loadRuntimeWidgets`, as a pure function
of the environment. The thrown `Could not find current application.`
error is the `Except.error` case; everything else runs to completion. -/
def loadRuntimeWidgets (env : Env) : Except LoadError LoadResult :=
  match resolveApp env with
  | none => Except.error LoadError.applicationNotFound
  | some app => Except.ok (loadRun env app)

/-- The persisted runtime-context identifier list after the run: the
updated list when an inventory update was issued, the original one
otherwise. -/
def finalPaths (res : LoadResult) : List String :=
  match res.update with
  | some (_, ps) => ps
  | none => res.rtcPaths

/-- `RuntimeWidgetLoaderService#removeWidgetFromApp`. -/
def removeWidgetFromApp (env : Env) (appId contextPath : String) :
    List Event × Option (String × List String) :=
  match (env.runtimeContexts.filter (fun r => r.appId == appId)).head? with
  | none => ([], none)
  | some r =>
    match r.widgetContextPaths with
    | none => ([], none)
    | some ps =>
      if contextPath ∈ ps then
        ([Event.inventoryUpdate r.id (ps.erase contextPath)],
          some (r.id, ps.erase contextPath))
      else ([], none)

/-! The monkey-patched host dispatch path. -/

/-- What `dynamicComponentService.getById$` yields for a component id:
nothing, or a definition together with its `isRuntimeLoaded` mark. -/
structure DynEntry where
  isRuntimeLoaded : Bool
  deriving Repr, DecidableEq

inductive InstanceState where
  | resolved
  | errorState
  deriving Repr, DecidableEq

/-- The patched `DynamicComponentComponent#loadComponent`: reading
`isRuntimeLoaded` off `undefined` throws (caught, error state); a
runtime-loaded definition whose id has no `widgetFactories` entry makes
the destructuring throw (caught, error state); otherwise the stored or
host-resolved factory renders the instance. -/
def loadComponentPatched (factories : List (String × FactoryEntry)) (componentId : String)
    (cmp : Option DynEntry) : InstanceState :=
  match cmp with
  | none => InstanceState.errorState
  | some c =>
    if c.isRuntimeLoaded then
      match mapGet factories componentId with
      | some _ => InstanceState.resolved
      | none => InstanceState.errorState
    else InstanceState.resolved

/-- The outcome of the patched `ngOnChanges` pipe for one render
request: whether it suspended on `isLoaded$`, and which registry value
was eventually delivered to `loadComponent`. -/
structure RenderOutcome where
  suspended : Bool
  delivered : Option DynEntry
  deriving Repr, DecidableEq

/-- The patched `DynamicComponentComponent#ngOnChanges`: when the id
resolves to nothing or to a runtime-sourced entry, gate on `isLoaded$`
(immediately satisfied when it already holds true) and re-resolve the id
afterwards; otherwise deliver the host entry straight through. -/
def ngOnChangesPatched (lookupNow lookupAfterLoad : Option DynEntry) (loadedNow : Bool) :
    RenderOutcome :=
  match lookupNow with
  | some c =>
    if c.isRuntimeLoaded then
      if loadedNow then ⟨false, some c⟩ else ⟨true, lookupAfterLoad⟩
    else ⟨false, some c⟩
  | none =>
    if loadedNow then ⟨false, none⟩ else ⟨true, lookupAfterLoad⟩

/-! Event-shape predicates: which constructors each phase can emit. -/

def importShape : Event → Bool
  | Event.progress .. => true
  | Event.manifestImport .. => true
  | Event.entryImport .. => true
  | Event.consoleError .. => true
  | Event.alertDanger .. => true
  | _ => false

def extractShape : Event → Bool
  | Event.extractScan .. => true
  | Event.activate .. => true
  | Event.consoleError .. => true
  | Event.alertDanger .. => true
  | _ => false

def registerShape : Event → Bool
  | Event.loadWidgetCall .. => true
  | Event.consoleError .. => true
  | Event.alertDanger .. => true
  | _ => false

def cleanupShape : Event → Bool
  | Event.inventoryUpdate .. => true
  | _ => false

/-- Manifest or entry-module import events. -/
def isImportEv : Event → Bool
  | Event.manifestImport .. => true
  | Event.entryImport .. => true
  | _ => false

/-- Plugin-extraction or module-activation events. -/
def isActivationEv : Event → Bool
  | Event.extractScan .. => true
  | Event.activate .. => true
  | _ => false

/-- The `setLoaded true` transition. -/
def isSetLoadedTrue : Event → Bool
  | Event.setLoaded b => b
  | _ => false

/-- Loop-progress events (`Loading widgets N of M`). -/
def isProgressEv : Event → Bool
  | Event.progress .. => true
  | _ => false

/-- The bundle identifier an import-phase event is about, if any. -/
def importEvCp : Event → Option String
  | Event.manifestImport cp _ => some cp
  | Event.entryImport cp _ => some cp
  | Event.consoleError _ cp => some cp
  | _ => none

/-- How many entries of the table sit under one key. -/
def countKey (m : List (String × FactoryEntry)) (k : String) : Nat :=
  m.countP (fun p => p.1 == k)

/-- Every runtime definition pushed into the host registry has a
factories entry under its id. -/
def RegInv (st : RegState) : Prop :=
  ∀ p ∈ st.hostRegistry, (mapGet st.factories p.1).isSome

/-- A minimal environment: the current application exists, owns no
widget context paths, and no runtime-context record exists. -/
def envSimple : Env :=
  { currentContextPath := "app",
    appList := [⟨"1", "app", "PRIVATE", some []⟩],
    runtimeContexts := [],
    manifestOk := fun _ => false,
    entryImport := fun _ => none }

/-- The run of `loadRuntimeWidgets` over `envSimple`. -/
def resSimple : LoadResult :=
  { trace := [Event.progressText msgLoading, Event.progressText msgStillWorking,
      Event.staticRegistryNonempty, Event.progressText msgAlmostReady,
      Event.progressClose, Event.setLoaded true],
    factories := [],
    hostRegistry := [],
    contextPaths := [],
    cleanup := [],
    rtcPaths := [],
    modules := [],
    update := none,
    isLoaded := true }

/-- An environment whose application carries an empty-string identifier
alongside a loadable one. -/
def envC10 : Env :=
  { currentContextPath := "app",
    appList := [⟨"1", "app", "PRIVATE", some ["", "x"]⟩],
    runtimeContexts := [],
    manifestOk := fun cp => cp == "x",
    entryImport := fun cp => if cp == "x" then some [] else none }

/-- The run of `loadRuntimeWidgets` over `envC10`. -/
def resC10 : LoadResult :=
  { trace := [Event.progressText msgLoading, Event.progress 1 2,
      Event.manifestImport "x" true, Event.entryImport "x" true,
      Event.progressText msgStillWorking, Event.staticRegistryNonempty,
      Event.progressText msgAlmostReady, Event.progressClose, Event.setLoaded true],
    factories := [],
    hostRegistry := [],
    contextPaths := ["", "x"],
    cleanup := [],
    rtcPaths := [],
    modules := [],
    update := none,
    isLoaded := true }

/-- User-visible warnings and logged errors. -/
def isWarningEv : Event → Bool
  | Event.alertDanger _ => true
  | Event.consoleError .. => true
  | _ => false

/-- An environment for the zero-qualifying-descriptors scenario: the
identifier set is `["a"]`, `"a"` imports successfully, and none of its
exports passes the module-descriptor predicate. -/
def envC7 : Env :=
  { currentContextPath := "app",
    appList := [⟨"1", "app", "PRIVATE", some ["a"]⟩],
    runtimeContexts := [⟨"r1", "1", some ["a"]⟩],
    manifestOk := fun _ => true,
    entryImport := fun _ => some [("k", ⟨false, none⟩), ("c", ⟨false, none⟩)] }

/-- An environment with two loadable identifiers, each exporting one
compiling module with one widget. -/
def envC6 : Env :=
  { currentContextPath := "app",
    appList := [⟨"1", "app", "PRIVATE", some ["a", "b"]⟩],
    runtimeContexts := [],
    manifestOk := fun _ => true,
    entryImport := fun cp =>
      if cp = "a" then some [("k", ⟨true, some ⟨1, [WGroup.one ⟨"w1", false, true, true⟩]⟩⟩)]
      else some [("k2", ⟨true, some ⟨2, [WGroup.one ⟨"w2", false, true, true⟩]⟩⟩)] }

/-- The run of `loadRuntimeWidgets` over `envC6`. -/
def resC6 : LoadResult :=
  { trace := [Event.progressText msgLoading, Event.progress 1 2,
      Event.manifestImport "a" true, Event.entryImport "a" true,
      Event.progress 2 2, Event.manifestImport "b" true, Event.entryImport "b" true,
      Event.progressText msgStillWorking,
      Event.extractScan "a" "k" true, Event.activate "a" "k" true,
      Event.extractScan "b" "k2" true, Event.activate "b" "k2" true,
      Event.staticRegistryNonempty, Event.progressText msgAlmostReady,
      Event.loadWidgetCall "w1", Event.loadWidgetCall "w2",
      Event.progressClose, Event.setLoaded true],
    factories := [("w1", ⟨⟨"w1", false, true, true⟩, 1, false⟩),
      ("w2", ⟨⟨"w2", false, true, true⟩, 2, false⟩)],
    hostRegistry := [("w1", 1), ("w2", 2)],
    contextPaths := ["a", "b"],
    cleanup := [],
    rtcPaths := [],
    modules := [⟨1, [WGroup.one ⟨"w1", false, true, true⟩]⟩,
      ⟨2, [WGroup.one ⟨"w2", false, true, true⟩]⟩],
    update := none,
    isLoaded := true }

/-- User-visible alerts alone. -/
def isDangerEv : Event → Bool
  | Event.alertDanger _ => true
  | _ => false

/-- Console log entries alone. -/
def isConsoleEv : Event → Bool
  | Event.consoleError .. => true
  | _ => false

/-- An environment where both identifiers fail their manifest import:
`"w"` still matches a known application, `"gone"` matches none. -/
def envC1 : Env :=
  { currentContextPath := "app",
    appList := [⟨"1", "app", "PRIVATE", some ["w", "gone"]⟩,
      ⟨"2", "w", "MARKET", none⟩],
    runtimeContexts := [⟨"r1", "1", some ["gone"]⟩],
    manifestOk := fun _ => false,
    entryImport := fun _ => none }

/-- The run of `loadRuntimeWidgets` over `envC1`. -/
def resC1 : LoadResult :=
  { trace := [Event.progressText msgLoading, Event.progress 1 2,
      Event.manifestImport "w" false, Event.consoleError "manifest" "w",
      Event.progress 2 2, Event.manifestImport "gone" false,
      Event.progressText msgStillWorking, Event.staticRegistryNonempty,
      Event.progressText msgAlmostReady, Event.progressClose,
      Event.setLoaded true, Event.inventoryUpdate "r1" []],
    factories := [],
    hostRegistry := [],
    contextPaths := ["w", "gone"],
    cleanup := ["gone"],
    rtcPaths := ["gone"],
    modules := [],
    update := some ("r1", []),
    isLoaded := true }

theorem importStep_shape (env : Env) (total counter : Nat) (cp : String) :
    ∀ e ∈ (importStep env total counter cp).trace, importShape e = true := by
  intro e he
  unfold importStep at he
  repeat' split at he
  all_goals simp only [List.mem_cons, List.not_mem_nil, or_false] at he
  all_goals repeat' rcases he with rfl | he
  all_goals rfl

theorem importPhase_shape (env : Env) (total : Nat) :
    ∀ cps counter, ∀ e ∈ (importPhase env total counter cps).trace, importShape e = true := by
  intro cps
  induction cps with
  | nil => intro counter e he; simp [importPhase] at he
  | cons cp rest ih =>
    intro counter e he
    simp only [importPhase, List.mem_append] at he
    rcases he with h | h
    · exact importStep_shape env total counter cp e h
    · exact ih _ e h

theorem extractObj_shape (cp key : String) (obj : ExportedObj) :
    ∀ e ∈ (extractObj cp key obj).1, extractShape e = true := by
  intro e he
  unfold extractObj at he
  repeat' split at he
  all_goals simp only [List.mem_cons, List.not_mem_nil, or_false] at he
  all_goals repeat' rcases he with rfl | he
  all_goals rfl

theorem extractModule_shape (cp : String) :
    ∀ m : JsModule, ∀ e ∈ (extractModule cp m).1, extractShape e = true := by
  intro m
  induction m with
  | nil => intro e he; simp [extractModule] at he
  | cons p rest ih =>
    intro e he
    obtain ⟨key, obj⟩ := p
    simp only [extractModule, List.mem_append] at he
    rcases he with h | h
    · exact extractObj_shape cp key obj e h
    · exact ih e h

theorem extractPhase_shape :
    ∀ ms : List (String × JsModule), ∀ e ∈ (extractPhase ms).1, extractShape e = true := by
  intro ms
  induction ms with
  | nil => intro e he; simp [extractPhase] at he
  | cons p rest ih =>
    intro e he
    obtain ⟨cp, m⟩ := p
    simp only [extractPhase, List.mem_append] at he
    rcases he with h | h
    · exact extractModule_shape cp m e h
    · exact ih e h

theorem loadWidget_shape (modId : Nat) (w : WidgetDef) (st : RegState) :
    ∀ e ∈ (loadWidget modId w st).1, registerShape e = true := by
  intro e he
  unfold loadWidget at he
  split at he
  all_goals simp only [List.mem_cons, List.not_mem_nil, or_false] at he
  all_goals repeat' rcases he with rfl | he
  all_goals rfl

theorem registerWidgets_shape (modId : Nat) :
    ∀ ws st, ∀ e ∈ (registerWidgets modId ws st).1, registerShape e = true := by
  intro ws
  induction ws with
  | nil => intro st e he; simp [registerWidgets] at he
  | cons w rest ih =>
    intro st e he
    simp only [registerWidgets, List.mem_append] at he
    rcases he with h | h
    · exact loadWidget_shape modId w st e h
    · exact ih _ e h

theorem registerPhase_shape :
    ∀ insts st, ∀ e ∈ (registerPhase insts st).1, registerShape e = true := by
  intro insts
  induction insts with
  | nil => intro st e he; simp [registerPhase] at he
  | cons inst rest ih =>
    intro st e he
    simp only [registerPhase, List.mem_append] at he
    rcases he with h | h
    · exact registerWidgets_shape inst.moduleId _ st e h
    · exact ih _ e h

theorem cleanupPhase_shape (rtc : Option RuntimeContextRec) (cleanup : List String) :
    ∀ e ∈ (cleanupPhase rtc cleanup).1, cleanupShape e = true := by
  intro e he
  unfold cleanupPhase at he
  repeat' split at he
  all_goals simp only [List.mem_cons, List.not_mem_nil, or_false] at he
  all_goals try subst he
  all_goals rfl

/-! Refined facts about the import loop. -/

theorem importStep_empty (env : Env) (total counter : Nat) :
    importStep env total counter "" = ⟨[], counter, [], []⟩ := rfl

theorem importStep_trace_ne_empty (env : Env) (total counter : Nat) (cp : String) :
    ∀ e ∈ (importStep env total counter cp).trace, cp ≠ "" := by
  intro e he h
  subst h
  simp [importStep] at he

theorem importStep_evCp (env : Env) (total counter : Nat) (cp : String) :
    ∀ e ∈ (importStep env total counter cp).trace, ∀ c, importEvCp e = some c → c = cp := by
  intro e he c hc
  unfold importStep at he
  repeat' split at he
  all_goals simp only [List.mem_cons, List.not_mem_nil, or_false] at he
  all_goals repeat' rcases he with rfl | he
  all_goals simp [importEvCp] at hc
  all_goals exact hc.symm

theorem importPhase_evCp (env : Env) (total : Nat) :
    ∀ cps counter, ∀ e ∈ (importPhase env total counter cps).trace, ∀ c,
      importEvCp e = some c → c ∈ cps ∧ c ≠ "" := by
  intro cps
  induction cps with
  | nil => intro counter e he; simp [importPhase] at he
  | cons cp rest ih =>
    intro counter e he c hc
    simp only [importPhase, List.mem_append] at he
    rcases he with h | h
    · have hcp := importStep_evCp env total counter cp e h c hc
      subst hcp
      exact ⟨List.mem_cons_self _ _, importStep_trace_ne_empty env total counter c e h⟩
    · obtain ⟨h1, h2⟩ := ih _ e h c hc
      exact ⟨List.mem_cons_of_mem _ h1, h2⟩

theorem importStep_progress_total (env : Env) (total counter : Nat) (cp : String) :
    ∀ e ∈ (importStep env total counter cp).trace, ∀ c t,
      e = Event.progress c t → t = total := by
  intro e he c t hct
  subst hct
  unfold importStep at he
  repeat' split at he
  all_goals simp_all

theorem importPhase_progress_total (env : Env) (total : Nat) :
    ∀ cps counter, ∀ e ∈ (importPhase env total counter cps).trace, ∀ c t,
      e = Event.progress c t → t = total := by
  intro cps
  induction cps with
  | nil => intro counter e he; simp [importPhase] at he
  | cons cp rest ih =>
    intro counter e he c t hct
    simp only [importPhase, List.mem_append] at he
    rcases he with h | h
    · exact importStep_progress_total env total counter cp e h c t hct
    · exact ih _ e h c t hct

theorem importStep_cleanup_char (env : Env) (total counter : Nat) (cp : String) :
    ∀ c ∈ (importStep env total counter cp).cleanup,
      c = cp ∧ cp ≠ "" ∧ env.manifestOk cp = false ∧
        env.appList.any (fun a => a.contextPath == cp) = false := by
  intro c hc
  unfold importStep at hc
  repeat' split at hc
  all_goals simp_all

theorem importPhase_cleanup_char (env : Env) (total : Nat) :
    ∀ cps counter, ∀ c ∈ (importPhase env total counter cps).cleanup,
      c ∈ cps ∧ c ≠ "" ∧ env.manifestOk c = false ∧
        env.appList.any (fun a => a.contextPath == c) = false := by
  intro cps
  induction cps with
  | nil => intro counter c hc; simp [importPhase] at hc
  | cons cp rest ih =>
    intro counter c hc
    simp only [importPhase, List.mem_append] at hc
    rcases hc with h | h
    · obtain ⟨rfl, h2, h3, h4⟩ := importStep_cleanup_char env total counter cp c h
      exact ⟨List.mem_cons_self _ _, h2, h3, h4⟩
    · obtain ⟨h1, h2, h3, h4⟩ := ih _ c h
      exact ⟨List.mem_cons_of_mem _ h1, h2, h3, h4⟩

theorem importStep_unknown_fail (env : Env) (total counter : Nat) (cp : String)
    (hne : cp ≠ "") (hm : env.manifestOk cp = false)
    (ha : env.appList.any (fun a => a.contextPath == cp) = false) :
    importStep env total counter cp =
      ⟨[Event.progress (counter + 1) total, Event.manifestImport cp false],
        counter + 1, [], [cp]⟩ := by
  unfold importStep
  simp [hne, hm, ha]

theorem importStep_known_fail (env : Env) (total counter : Nat) (cp : String)
    (hne : cp ≠ "") (hm : env.manifestOk cp = false)
    (ha : env.appList.any (fun a => a.contextPath == cp) = true) :
    importStep env total counter cp =
      ⟨[Event.progress (counter + 1) total, Event.manifestImport cp false,
        Event.consoleError "manifest" cp], counter + 1, [], []⟩ := by
  unfold importStep
  simp [hne, hm, ha]

theorem importPhase_cleanup_mem (env : Env) (total : Nat) :
    ∀ cps counter cp, cp ∈ cps → cp ≠ "" → env.manifestOk cp = false →
      env.appList.any (fun a => a.contextPath == cp) = false →
      cp ∈ (importPhase env total counter cps).cleanup := by
  intro cps
  induction cps with
  | nil => intro counter cp h; simp at h
  | cons hd rest ih =>
    intro counter cp hmem hne hm ha
    simp only [importPhase, List.mem_append]
    rcases List.mem_cons.mp hmem with rfl | h
    · left
      rw [importStep_unknown_fail env total counter cp hne hm ha]
      exact List.mem_singleton.mpr rfl
    · right
      exact ih _ cp h hne hm ha

theorem importPhase_step_subset (env : Env) (total : Nat) :
    ∀ cps counter cp, cp ∈ cps →
      ∃ c, ∀ e ∈ (importStep env total c cp).trace,
        e ∈ (importPhase env total counter cps).trace := by
  intro cps
  induction cps with
  | nil => intro counter cp h; simp at h
  | cons hd rest ih =>
    intro counter cp hmem
    rcases List.mem_cons.mp hmem with rfl | h
    · refine ⟨counter, fun e he => ?_⟩
      simp only [importPhase, List.mem_append]
      exact Or.inl he
    · obtain ⟨c, hc⟩ := ih (importStep env total counter hd).counter cp h
      refine ⟨c, fun e he => ?_⟩
      simp only [importPhase, List.mem_append]
      exact Or.inr (hc e he)

theorem importStep_manifest_mem (env : Env) (total counter : Nat) (cp : String)
    (hne : cp ≠ "") :
    Event.manifestImport cp (env.manifestOk cp) ∈ (importStep env total counter cp).trace := by
  unfold importStep
  repeat' split
  all_goals simp_all

theorem importPhase_manifest_mem (env : Env) (total : Nat) (cps : List String)
    (counter : Nat) (cp : String) (hmem : cp ∈ cps) (hne : cp ≠ "") :
    Event.manifestImport cp (env.manifestOk cp) ∈ (importPhase env total counter cps).trace := by
  obtain ⟨c, hc⟩ := importPhase_step_subset env total cps counter cp hmem
  exact hc _ (importStep_manifest_mem env total c cp hne)

/-! Facts about the cleanup splice loop. -/

theorem spliceAll_subset :
    ∀ cl ps (x : String), x ∈ (spliceAll ps cl).1 → x ∈ ps := by
  intro cl
  induction cl with
  | nil => intro ps x h; exact h
  | cons cp rest ih =>
    intro ps x h
    unfold spliceAll at h
    split at h
    · exact (ps.erase_sublist cp).mem (ih _ x h)
    · exact ih _ x h

theorem spliceAll_not_mem :
    ∀ cl ps (cp : String), ps.Nodup → cp ∈ cl → cp ∉ (spliceAll ps cl).1 := by
  intro cl
  induction cl with
  | nil => intro ps cp _ h; simp at h
  | cons hd rest ih =>
    intro ps cp hnd hmem h
    unfold spliceAll at h
    split at h
    · rcases List.mem_cons.mp hmem with rfl | hm
      · exact (hnd.not_mem_erase (spliceAll_subset rest _ cp h))
      · exact ih _ cp (hnd.erase hd) hm h
    · rcases List.mem_cons.mp hmem with rfl | hm
      · exact (by assumption : ¬ cp ∈ ps) (spliceAll_subset rest ps cp h)
      · exact ih _ cp hnd hm h

theorem spliceAll_flag :
    ∀ cl ps (cp : String), cp ∈ cl → cp ∈ ps → (spliceAll ps cl).2 = true := by
  intro cl
  induction cl with
  | nil => intro ps cp h; simp at h
  | cons hd rest ih =>
    intro ps cp hmem hps
    unfold spliceAll
    split
    · rfl
    · rcases List.mem_cons.mp hmem with rfl | hm
      · exact absurd hps (by assumption)
      · exact ih ps cp hm hps

theorem spliceAll_mem_preserved :
    ∀ cl ps (cp : String), cp ∉ cl → cp ∈ ps → cp ∈ (spliceAll ps cl).1 := by
  intro cl
  induction cl with
  | nil => intro ps cp _ h; exact h
  | cons hd rest ih =>
    intro ps cp hncl hps
    have hne : cp ≠ hd := fun h => hncl (h ▸ List.mem_cons_self hd rest)
    have hnrest : cp ∉ rest := fun h => hncl (List.mem_cons_of_mem hd h)
    unfold spliceAll
    split
    · exact ih _ cp hnrest ((List.mem_erase_of_ne hne).mpr hps)
    · exact ih _ cp hnrest hps

/-! Facts about JS `Set` deduplication. -/

theorem jsSetFold_mem :
    ∀ (l acc : List String) (x : String),
      x ∈ l.foldl jsSetInsert acc ↔ x ∈ acc ∨ x ∈ l := by
  intro l
  induction l with
  | nil => intro acc x; simp
  | cons a rest ih =>
    intro acc x
    simp only [List.foldl_cons, ih, List.mem_cons]
    unfold jsSetInsert
    split
    · constructor
      · rintro (h | h)
        · exact Or.inl h
        · exact Or.inr (Or.inr h)
      · rintro (h | h | h)
        · exact Or.inl h
        · subst h; exact Or.inl (by assumption)
        · exact Or.inr h
    · simp only [List.mem_append, List.mem_singleton]
      tauto

theorem jsSetFold_nodup :
    ∀ (l acc : List String), acc.Nodup → (l.foldl jsSetInsert acc).Nodup := by
  intro l
  induction l with
  | nil => intro acc h; exact h
  | cons a rest ih =>
    intro acc hnd
    simp only [List.foldl_cons]
    apply ih
    unfold jsSetInsert
    split
    · exact hnd
    · simpa using List.Nodup.append hnd (List.nodup_singleton a)
        (by simpa [List.disjoint_singleton] using (by assumption : ¬ a ∈ acc))

theorem jsSetDedup_mem (l : List String) (x : String) : x ∈ jsSetDedup l ↔ x ∈ l := by
  unfold jsSetDedup
  rw [jsSetFold_mem]
  simp

theorem jsSetDedup_nodup (l : List String) : (jsSetDedup l).Nodup :=
  jsSetFold_nodup l [] List.nodup_nil

/-! Facts about the widgetFactories map. -/

theorem mapGet_cons (p : String × FactoryEntry) (rest : List (String × FactoryEntry))
    (k : String) :
    mapGet (p :: rest) k = if p.1 = k then some p.2 else mapGet rest k := by
  by_cases hp : p.1 = k
  · have hb : (p.1 == k) = true := beq_iff_eq.mpr hp
    simp [mapGet, List.find?_cons, hb, hp]
  · have hb : (p.1 == k) = false := by simpa using hp
    simp [mapGet, List.find?_cons, hb, hp]

theorem mapSet_cons (p : String × FactoryEntry) (rest : List (String × FactoryEntry))
    (k : String) (v : FactoryEntry) :
    mapSet (p :: rest) k v = if p.1 = k then (k, v) :: rest else p :: mapSet rest k v := by
  by_cases hp : p.1 = k
  · have hb : (p.1 == k) = true := beq_iff_eq.mpr hp
    simp [mapSet, hb, hp]
  · have hb : (p.1 == k) = false := by simpa using hp
    simp [mapSet, hb, hp]

theorem countKey_cons (p : String × FactoryEntry) (rest : List (String × FactoryEntry))
    (k : String) :
    countKey (p :: rest) k = (if p.1 = k then 1 else 0) + countKey rest k := by
  by_cases hp : p.1 = k
  · have hb : (p.1 == k) = true := beq_iff_eq.mpr hp
    simp [countKey, List.countP_cons, hb, hp, Nat.add_comm]
  · have hb : (p.1 == k) = false := by simpa using hp
    simp [countKey, List.countP_cons, hb, hp]

theorem mapGet_mapSet_self :
    ∀ (m : List (String × FactoryEntry)) (k : String) (v : FactoryEntry),
      mapGet (mapSet m k v) k = some v := by
  intro m
  induction m with
  | nil => intro k v; simp [mapSet, mapGet]
  | cons p rest ih =>
    intro k v
    rw [mapSet_cons]
    by_cases hp : p.1 = k
    · simp [hp, mapGet_cons]
    · simp only [hp, if_false]
      rw [mapGet_cons]
      simp [hp, ih]

theorem countKey_mapSet :
    ∀ (m : List (String × FactoryEntry)) (k : String) (v : FactoryEntry),
      countKey m k ≤ 1 → countKey (mapSet m k v) k = 1 := by
  intro m
  induction m with
  | nil => intro k v _; simp [mapSet, countKey]
  | cons p rest ih =>
    intro k v hle
    rw [mapSet_cons]
    rw [countKey_cons] at hle
    by_cases hp : p.1 = k
    · simp only [hp, if_true] at hle ⊢
      rw [countKey_cons]
      have hkk : ((k, v) : String × FactoryEntry).1 = k := rfl
      rw [if_pos hkk]
      omega
    · simp only [hp, if_false] at hle ⊢
      rw [countKey_cons]
      simp only [hp, if_false]
      simpa using ih k v (by omega)

theorem mapGet_mapSet_isSome :
    ∀ (m : List (String × FactoryEntry)) (k q : String) (v : FactoryEntry),
      (mapGet m q).isSome → (mapGet (mapSet m k v) q).isSome := by
  intro m
  induction m with
  | nil => intro k q v h; simp [mapGet] at h
  | cons p rest ih =>
    intro k q v h
    rw [mapGet_cons] at h
    rw [mapSet_cons]
    by_cases hp : p.1 = k
    · simp only [hp, if_true]
      rw [mapGet_cons]
      by_cases hq : k = q
      · simp [hq]
      · have hpq : ¬ p.1 = q := fun hh => hq (hp ▸ hh)
        simp only [hpq, if_false] at h
        simpa [hq] using h
    · simp only [hp, if_false]
      rw [mapGet_cons]
      by_cases hpq : p.1 = q
      · simp [hpq]
      · simp only [hpq, if_false] at h ⊢
        exact ih k q v h

/-! Facts about application resolution. -/

theorem resolveApp_none_iff (env : Env) :
    resolveApp env = none ↔
      ∀ a ∈ env.appList, a.contextPath ≠ env.currentContextPath := by
  unfold resolveApp
  cases hfind : env.appList.find? (fun a =>
      a.contextPath == env.currentContextPath && a.availability == "PRIVATE") with
  | some b =>
    simp only
    constructor
    · intro h; exact Option.noConfusion h
    · intro h
      exfalso
      have hb := List.find?_some hfind
      have hmem := List.mem_of_find?_eq_some hfind
      simp only [Bool.and_eq_true, beq_iff_eq] at hb
      exact h b hmem hb.1
  | none =>
    simp only
    rw [List.find?_eq_none]
    constructor
    · intro h a ha hc
      have := h a ha
      simp [hc] at this
    · intro h a ha
      simp only [beq_iff_eq]
      exact h a ha

theorem resolveApp_some (env : Env) (app : Application)
    (h : resolveApp env = some app) :
    app ∈ env.appList ∧ app.contextPath = env.currentContextPath ∧
      (app.availability = "PRIVATE" ∨
        ∀ b ∈ env.appList, b.contextPath = env.currentContextPath →
          b.availability ≠ "PRIVATE") := by
  unfold resolveApp at h
  cases hfind : env.appList.find? (fun a =>
      a.contextPath == env.currentContextPath && a.availability == "PRIVATE") with
  | some b =>
    rw [hfind] at h
    simp only [Option.some.injEq] at h
    subst h
    have hb := List.find?_some hfind
    have hmem := List.mem_of_find?_eq_some hfind
    simp only [Bool.and_eq_true, beq_iff_eq] at hb
    exact ⟨hmem, hb.1, Or.inl hb.2⟩
  | none =>
    rw [hfind] at h
    simp only at h
    have hb := List.find?_some h
    have hmem := List.mem_of_find?_eq_some h
    simp only [beq_iff_eq] at hb
    refine ⟨hmem, hb, Or.inr ?_⟩
    intro b hbmem hbc hbp
    rw [List.find?_eq_none] at hfind
    have := hfind b hbmem
    simp [hbc, hbp] at this

/-! Facts about the registration loop. -/

theorem loadWidget_call_mem (modId : Nat) (w : WidgetDef) (st : RegState) :
    Event.loadWidgetCall w.id ∈ (loadWidget modId w st).1 := by
  unfold loadWidget
  split <;> simp

theorem registerWidgets_call_mem (modId : Nat) :
    ∀ ws st (w : WidgetDef), w ∈ ws →
      Event.loadWidgetCall w.id ∈ (registerWidgets modId ws st).1 := by
  intro ws
  induction ws with
  | nil => intro st w h; simp at h
  | cons hd rest ih =>
    intro st w hmem
    simp only [registerWidgets, List.mem_append]
    rcases List.mem_cons.mp hmem with rfl | h
    · exact Or.inl (loadWidget_call_mem modId w st)
    · exact Or.inr (ih _ w h)

theorem registerPhase_call_mem :
    ∀ insts st (inst : ModuleInstance), inst ∈ insts →
      ∀ w ∈ flattenGroups inst.widgets,
        Event.loadWidgetCall w.id ∈ (registerPhase insts st).1 := by
  intro insts
  induction insts with
  | nil => intro st inst h; simp at h
  | cons hd rest ih =>
    intro st inst hmem w hw
    simp only [registerPhase, List.mem_append]
    rcases List.mem_cons.mp hmem with rfl | h
    · exact Or.inl (registerWidgets_call_mem inst.moduleId _ _ w hw)
    · exact Or.inr (ih _ inst h w hw)

theorem loadWidget_inv (modId : Nat) (w : WidgetDef) (st : RegState)
    (hinv : RegInv st) : RegInv (loadWidget modId w st).2 := by
  unfold loadWidget
  split
  · intro p hp
    simp only [List.mem_append, List.mem_singleton] at hp
    rcases hp with h | h
    · exact mapGet_mapSet_isSome st.factories w.id p.1 _ (hinv p h)
    · subst h
      simp [mapGet_mapSet_self]
  · exact hinv

/-! Inversion of a completed run, shape bridges and the
per-identifier block decomposition of the import trace. -/

theorem loadRuntimeWidgets_ok_inv (env : Env) (res : LoadResult)
    (h : loadRuntimeWidgets env = Except.ok res) :
    ∃ app, resolveApp env = some app ∧ res = loadRun env app := by
  unfold loadRuntimeWidgets at h
  cases happ : resolveApp env with
  | none => rw [happ] at h; exact Except.noConfusion h
  | some app =>
    rw [happ] at h
    simp only [Except.ok.injEq] at h
    exact ⟨app, rfl, h.symm⟩

theorem importShape_bridge (e : Event) (h : importShape e = true) :
    isSetLoadedTrue e = false ∧ isActivationEv e = false ∧
      (∀ i, e ≠ Event.loadWidgetCall i) := by
  cases e <;> simp_all [importShape, isSetLoadedTrue, isActivationEv]

theorem extractShape_bridge (e : Event) (h : extractShape e = true) :
    isSetLoadedTrue e = false ∧ isImportEv e = false ∧ isProgressEv e = false ∧
      (∀ i, e ≠ Event.loadWidgetCall i) := by
  cases e <;> simp_all [extractShape, isSetLoadedTrue, isImportEv, isProgressEv]

theorem registerShape_bridge (e : Event) (h : registerShape e = true) :
    isSetLoadedTrue e = false ∧ isImportEv e = false ∧ isActivationEv e = false ∧
      isProgressEv e = false := by
  cases e <;> simp_all [registerShape, isSetLoadedTrue, isImportEv, isActivationEv,
    isProgressEv]

theorem cleanupShape_bridge (e : Event) (h : cleanupShape e = true) :
    isSetLoadedTrue e = false ∧ isImportEv e = false ∧ isActivationEv e = false ∧
      isProgressEv e = false ∧ (∀ i, e ≠ Event.loadWidgetCall i) := by
  cases e <;> simp_all [cleanupShape, isSetLoadedTrue, isImportEv, isActivationEv,
    isProgressEv]

theorem importPhase_blocks (env : Env) (total : Nat) :
    ∀ cps counter, ∃ blocks : List (List Event),
      (importPhase env total counter cps).trace = blocks.flatten ∧
      List.Forall₂ (fun cp block => ∀ e ∈ block, ∀ c, importEvCp e = some c → c = cp)
        cps blocks := by
  intro cps
  induction cps with
  | nil => intro counter; exact ⟨[], rfl, List.Forall₂.nil⟩
  | cons cp rest ih =>
    intro counter
    obtain ⟨blocks, h1, h2⟩ := ih (importStep env total counter cp).counter
    refine ⟨(importStep env total counter cp).trace :: blocks, ?_, ?_⟩
    · simp only [importPhase, h1, List.flatten_cons]
    · exact List.Forall₂.cons (importStep_evCp env total counter cp) h2

theorem removeWidgetFromApp_shape (env : Env) (appId cp : String) :
    ∀ e ∈ (removeWidgetFromApp env appId cp).1, cleanupShape e = true := by
  intro e he
  unfold removeWidgetFromApp at he
  repeat' split at he
  all_goals simp only [List.mem_cons, List.not_mem_nil, or_false] at he
  all_goals try subst he
  all_goals rfl

theorem loadRun_mem_inv (env : Env) (app : Application) (e : Event)
    (he : e ∈ (loadRun env app).trace) :
    e ∈ (runImport env app).trace ∨ e ∈ (runExtract env app).1 ∨
      e ∈ (runRegister env app).1 ∨ e ∈ (runCleanup env app).1 ∨
      e = Event.progressText msgLoading ∨ e = Event.progressText msgStillWorking ∨
      e = Event.staticRegistryNonempty ∨ e = Event.progressText msgAlmostReady ∨
      e = Event.progressClose ∨ e = Event.setLoaded true := by
  simp only [loadRun, List.mem_cons, List.mem_append, List.mem_singleton,
    List.not_mem_nil, or_false] at he
  tauto

theorem loadRun_mem_of_import (env : Env) (app : Application) (e : Event)
    (he : e ∈ (runImport env app).trace) : e ∈ (loadRun env app).trace := by
  simp only [loadRun, List.mem_cons, List.mem_append]
  tauto

/-- A run's trace never carries a `setLoaded false` event, and the
phase traces carry no `setLoaded` event at all. -/
theorem loadRun_setLoaded_only_true (env : Env) (app : Application) (b : Bool)
    (hb : Event.setLoaded b ∈ (loadRun env app).trace) : b = true := by
  rcases loadRun_mem_inv env app _ hb with h | h | h | h | h | h | h | h | h | h
  · have := importPhase_shape env _ _ _ _ h
    simp [importShape] at this
  · have := extractPhase_shape _ _ h
    simp [extractShape] at this
  · have := registerPhase_shape _ _ _ h
    simp [registerShape] at this
  · have := cleanupPhase_shape _ _ _ h
    simp [cleanupShape] at this
  all_goals simp at h
  all_goals exact h

theorem extractObj_console_tag (cp key : String) (obj : ExportedObj) :
    ∀ e ∈ (extractObj cp key obj).1, ∀ t c,
      e = Event.consoleError t c → t = "compile" := by
  intro e he t c htc
  subst htc
  unfold extractObj at he
  split at he
  · split at he
    · simp at he
    · simp only [List.mem_cons, List.not_mem_nil, or_false] at he
      rcases he with he | he | he | he <;> simp at he
      exact he.1
  · simp at he

theorem extractModule_console_tag (cp : String) :
    ∀ m : JsModule, ∀ e ∈ (extractModule cp m).1, ∀ t c,
      e = Event.consoleError t c → t = "compile" := by
  intro m
  induction m with
  | nil => intro e he; simp [extractModule] at he
  | cons p rest ih =>
    intro e he t c htc
    obtain ⟨key, obj⟩ := p
    simp only [extractModule, List.mem_append] at he
    rcases he with h | h
    · exact extractObj_console_tag cp key obj e h t c htc
    · exact ih e h t c htc

theorem extractPhase_console_tag :
    ∀ ms : List (String × JsModule), ∀ e ∈ (extractPhase ms).1, ∀ t c,
      e = Event.consoleError t c → t = "compile" := by
  intro ms
  induction ms with
  | nil => intro e he; simp [extractPhase] at he
  | cons p rest ih =>
    intro e he t c htc
    obtain ⟨cp, m⟩ := p
    simp only [extractPhase, List.mem_append] at he
    rcases he with h | h
    · exact extractModule_console_tag cp m e h t c htc
    · exact ih e h t c htc

theorem loadWidget_console_tag (modId : Nat) (w : WidgetDef) (st : RegState) :
    ∀ e ∈ (loadWidget modId w st).1, ∀ t c,
      e = Event.consoleError t c → t = "loadWidget" := by
  intro e he t c htc
  subst htc
  unfold loadWidget at he
  split at he
  · simp at he
  · simp only [List.mem_cons, List.not_mem_nil, or_false] at he
    rcases he with he | he | he <;> simp at he
    exact he.1

theorem registerWidgets_console_tag (modId : Nat) :
    ∀ ws st, ∀ e ∈ (registerWidgets modId ws st).1, ∀ t c,
      e = Event.consoleError t c → t = "loadWidget" := by
  intro ws
  induction ws with
  | nil => intro st e he; simp [registerWidgets] at he
  | cons w rest ih =>
    intro st e he t c htc
    simp only [registerWidgets, List.mem_append] at he
    rcases he with h | h
    · exact loadWidget_console_tag modId w st e h t c htc
    · exact ih _ e h t c htc

theorem registerPhase_console_tag :
    ∀ insts st, ∀ e ∈ (registerPhase insts st).1, ∀ t c,
      e = Event.consoleError t c → t = "loadWidget" := by
  intro insts
  induction insts with
  | nil => intro st e he; simp [registerPhase] at he
  | cons inst rest ih =>
    intro st e he t c htc
    simp only [registerPhase, List.mem_append] at he
    rcases he with h | h
    · exact registerWidgets_console_tag inst.moduleId _ st e h t c htc
    · exact ih _ e h t c htc

/-- Import events only ever come from the import loop. -/
theorem loadRun_import_only (env : Env) (app : Application) (e : Event)
    (he : e ∈ (loadRun env app).trace) (himp : isImportEv e = true) :
    e ∈ (runImport env app).trace := by
  rcases loadRun_mem_inv env app e he with h | h | h | h | h | h | h | h | h | h
  · exact h
  · rw [(extractShape_bridge e (extractPhase_shape _ e h)).2.1] at himp
    exact Bool.noConfusion himp
  · rw [(registerShape_bridge e (registerPhase_shape _ _ e h)).2.1] at himp
    exact Bool.noConfusion himp
  · rw [(cleanupShape_bridge e (cleanupPhase_shape _ _ e h)).2.1] at himp
    exact Bool.noConfusion himp
  all_goals subst h
  all_goals exact Bool.noConfusion himp

/-- Extraction/activation events only ever come from the
extraction loop. -/
theorem loadRun_activation_only (env : Env) (app : Application) (e : Event)
    (he : e ∈ (loadRun env app).trace) (hact : isActivationEv e = true) :
    e ∈ (runExtract env app).1 := by
  rcases loadRun_mem_inv env app e he with h | h | h | h | h | h | h | h | h | h
  · rw [(importShape_bridge e (importPhase_shape env _ _ _ e h)).2.1] at hact
    exact Bool.noConfusion hact
  · exact h
  · rw [(registerShape_bridge e (registerPhase_shape _ _ e h)).2.2.1] at hact
    exact Bool.noConfusion hact
  · rw [(cleanupShape_bridge e (cleanupPhase_shape _ _ e h)).2.2.1] at hact
    exact Bool.noConfusion hact
  all_goals subst h
  all_goals exact Bool.noConfusion hact

/-- Progress events only ever come from the import loop. -/
theorem loadRun_progress_only (env : Env) (app : Application) (e : Event)
    (he : e ∈ (loadRun env app).trace) (hpr : isProgressEv e = true) :
    e ∈ (runImport env app).trace := by
  rcases loadRun_mem_inv env app e he with h | h | h | h | h | h | h | h | h | h
  · exact h
  · rw [(extractShape_bridge e (extractPhase_shape _ e h)).2.2.1] at hpr
    exact Bool.noConfusion hpr
  · rw [(registerShape_bridge e (registerPhase_shape _ _ e h)).2.2.2] at hpr
    exact Bool.noConfusion hpr
  · rw [(cleanupShape_bridge e (cleanupPhase_shape _ _ e h)).2.2.2.1] at hpr
    exact Bool.noConfusion hpr
  all_goals subst h
  all_goals exact Bool.noConfusion hpr

/-! The claims -/

/-- Claim C2: a render request whose component id has no host-registry entry,
or whose entry is runtime-sourced, while the load signal is false, is
suspended by the patched `ngOnChanges` until `isLoaded$` becomes true and
is then re-resolved against the post-load registry, so it resolves only
after load completion; if the id still resolves to no entry after the
transition, the request ends in the error state for that instance. -/
theorem c2_render_request_waits_for_load (factories : List (String × FactoryEntry))
    (componentId : String) (lookupNow lookupAfterLoad : Option DynEntry)
    (hun : lookupNow = none ∨ ∃ c, lookupNow = some c ∧ c.isRuntimeLoaded = true) :
    (ngOnChangesPatched lookupNow lookupAfterLoad false).suspended = true ∧
      (ngOnChangesPatched lookupNow lookupAfterLoad false).delivered = lookupAfterLoad ∧
      (lookupAfterLoad = none →
        loadComponentPatched factories componentId
          (ngOnChangesPatched lookupNow lookupAfterLoad false).delivered =
          InstanceState.errorState) := by
  rcases hun with rfl | ⟨c, rfl, hc⟩
  · exact ⟨rfl, rfl, fun h => by rw [show (ngOnChangesPatched none lookupAfterLoad
      false).delivered = lookupAfterLoad from rfl, h]; rfl⟩
  · refine ⟨by simp [ngOnChangesPatched, hc], by simp [ngOnChangesPatched, hc], ?_⟩
    intro h
    rw [show (ngOnChangesPatched (some c) lookupAfterLoad false).delivered =
      lookupAfterLoad from by simp [ngOnChangesPatched, hc], h]
    rfl

theorem c2_render_request_waits_for_load_witness :
    ((none : Option DynEntry) = none ∨
        ∃ c, (none : Option DynEntry) = some c ∧ c.isRuntimeLoaded = true) ∧
      (ngOnChangesPatched none none false).suspended = true ∧
      (ngOnChangesPatched none none false).delivered = none ∧
      ((none : Option DynEntry) = none →
        loadComponentPatched [] "w1" (ngOnChangesPatched none none false).delivered =
          InstanceState.errorState) :=
  ⟨Or.inl rfl, c2_render_request_waits_for_load [] "w1" none none (Or.inl rfl)⟩

/-- Claim C4: registering two definitions with the same id through
`loadWidget` leaves exactly one `widgetFactories` entry under that id,
built from the second registration, and raises no collision error. -/
theorem c4_last_write_wins (modId1 modId2 : Nat) (w1 w2 : WidgetDef) (st : RegState)
    (hid : w1.id = w2.id)
    (hcount : countKey st.factories w1.id ≤ 1)
    (h1 : (w1.componentOk && (!w1.hasConfig || w1.configOk)) = true)
    (h2 : (w2.componentOk && (!w2.hasConfig || w2.configOk)) = true) :
    mapGet (loadWidget modId2 w2 (loadWidget modId1 w1 st).2).2.factories w2.id =
        some ⟨w2, modId2, w2.hasConfig⟩ ∧
      countKey (loadWidget modId2 w2 (loadWidget modId1 w1 st).2).2.factories w2.id = 1 ∧
      (∀ msg, Event.alertDanger msg ∉
        (loadWidget modId1 w1 st).1 ++ (loadWidget modId2 w2 (loadWidget modId1 w1 st).2).1) ∧
      (∀ tag c, Event.consoleError tag c ∉
        (loadWidget modId1 w1 st).1 ++ (loadWidget modId2 w2 (loadWidget modId1 w1 st).2).1) := by
  have hs1 : loadWidget modId1 w1 st =
      ([Event.loadWidgetCall w1.id],
        { factories := mapSet st.factories w1.id ⟨w1, modId1, w1.hasConfig⟩,
          hostRegistry := st.hostRegistry ++ [(w1.id, modId1)] }) := by
    unfold loadWidget; rw [if_pos h1]
  rw [hs1]
  have hs2 : ∀ st2 : RegState, loadWidget modId2 w2 st2 =
      ([Event.loadWidgetCall w2.id],
        { factories := mapSet st2.factories w2.id ⟨w2, modId2, w2.hasConfig⟩,
          hostRegistry := st2.hostRegistry ++ [(w2.id, modId2)] }) := by
    intro st2; unfold loadWidget; rw [if_pos h2]
  rw [hs2]
  refine ⟨mapGet_mapSet_self _ _ _, ?_, ?_, ?_⟩
  · apply countKey_mapSet
    rw [← hid]
    exact le_of_eq (countKey_mapSet st.factories w1.id _ hcount)
  · intro msg
    simp
  · intro tag c
    simp

theorem c4_last_write_wins_witness :
    mapGet (loadWidget 2 ⟨"w", true, true, true⟩
        (loadWidget 1 ⟨"w", false, true, true⟩ RegState.init).2).2.factories "w" =
      some ⟨⟨"w", true, true, true⟩, 2, true⟩ ∧
      countKey (loadWidget 2 ⟨"w", true, true, true⟩
        (loadWidget 1 ⟨"w", false, true, true⟩ RegState.init).2).2.factories "w" = 1 := by
  have := c4_last_write_wins 1 2 ⟨"w", false, true, true⟩ ⟨"w", true, true, true⟩
    RegState.init rfl (by decide) (by decide) (by decide)
  exact ⟨this.1, this.2.1⟩

/-- Claim C9: when factory construction fails inside `loadWidget`, the call
still returns (no throw): the state — both the `widgetFactories` table
and the host registry — is unchanged and the failure is surfaced;
`loadWidget` always preserves the invariant that every host-registry
runtime definition has a `widgetFactories` entry under its id; and the
registration loop still feeds every remaining definition of the batch
through `loadWidget`. -/
theorem c9_factory_failure_isolated (modId : Nat) (w : WidgetDef) (st : RegState)
    (hfail : (w.componentOk && (!w.hasConfig || w.configOk)) = false) :
    (loadWidget modId w st).2 = st ∧
      Event.alertDanger dangerMsgB ∈ (loadWidget modId w st).1 ∧
      (∀ modId' w' st', RegInv st' → RegInv (loadWidget modId' w' st').2) ∧
      (∀ insts st' (inst : ModuleInstance), inst ∈ insts →
        ∀ w' ∈ flattenGroups inst.widgets,
          Event.loadWidgetCall w'.id ∈ (registerPhase insts st').1) := by
  have hw : loadWidget modId w st =
      ([Event.loadWidgetCall w.id, Event.consoleError "loadWidget" w.id,
        Event.alertDanger dangerMsgB], st) := by
    unfold loadWidget
    rw [if_neg (by simp [hfail])]
  refine ⟨by rw [hw], by rw [hw]; simp, ?_, ?_⟩
  · intro modId' w' st' hinv
    exact loadWidget_inv modId' w' st' hinv
  · intro insts st' inst hmem w' hw'
    exact registerPhase_call_mem insts st' inst hmem w' hw'

/-- Claim C3: `isLoaded$` starts false; the trace of one completed
`loadRuntimeWidgets` run performs the `setLoaded true` transition exactly
once and never emits `setLoaded false`; and no other operation of the
service (`loadWidget`, `removeWidgetFromApp`) touches the signal. -/
theorem c3_load_signal_single_transition (env : Env) (res : LoadResult)
    (h : loadRuntimeWidgets env = Except.ok res)
    (modId : Nat) (w : WidgetDef) (st : RegState) (appId cp : String) :
    isLoadedInit = false ∧
      res.trace.countP isSetLoadedTrue = 1 ∧
      (∀ b, Event.setLoaded b ∈ res.trace → b = true) ∧
      (∀ b, Event.setLoaded b ∉ (loadWidget modId w st).1) ∧
      (∀ b, Event.setLoaded b ∉ (removeWidgetFromApp env appId cp).1) := by
  obtain ⟨app, happ, rfl⟩ := loadRuntimeWidgets_ok_inv env res h
  have cimp : (runImport env app).trace.countP isSetLoadedTrue = 0 := by
    apply List.countP_eq_zero.mpr
    intro e he
    rw [(importShape_bridge e (importPhase_shape env _ _ _ e he)).1]
    simp
  have cext : (runExtract env app).1.countP isSetLoadedTrue = 0 := by
    apply List.countP_eq_zero.mpr
    intro e he
    rw [(extractShape_bridge e (extractPhase_shape _ e he)).1]
    simp
  have creg : (runRegister env app).1.countP isSetLoadedTrue = 0 := by
    apply List.countP_eq_zero.mpr
    intro e he
    rw [(registerShape_bridge e (registerPhase_shape _ _ e he)).1]
    simp
  have ccln : (runCleanup env app).1.countP isSetLoadedTrue = 0 := by
    apply List.countP_eq_zero.mpr
    intro e he
    rw [(cleanupShape_bridge e (cleanupPhase_shape _ _ e he)).1]
    simp
  have s0 : isSetLoadedTrue (Event.progressText msgLoading) = false := rfl
  have s1 : isSetLoadedTrue (Event.progressText msgStillWorking) = false := rfl
  have s2 : isSetLoadedTrue Event.staticRegistryNonempty = false := rfl
  have s3 : isSetLoadedTrue (Event.progressText msgAlmostReady) = false := rfl
  have s4 : isSetLoadedTrue Event.progressClose = false := rfl
  have s5 : isSetLoadedTrue (Event.setLoaded true) = true := rfl
  refine ⟨rfl, ?_, ?_, ?_, ?_⟩
  · simp [loadRun, List.countP_append, List.countP_cons,
      cimp, cext, creg, ccln, s0, s1, s2, s3, s4, s5]
  · exact fun b hb => loadRun_setLoaded_only_true env app b hb
  · intro b hb
    have := loadWidget_shape modId w st _ hb
    simp [registerShape] at this
  · intro b hb
    have := removeWidgetFromApp_shape env appId cp _ hb
    simp [cleanupShape] at this

theorem c3_load_signal_single_transition_witness :
    loadRuntimeWidgets envSimple = Except.ok resSimple ∧
      (isLoadedInit = false ∧
        resSimple.trace.countP isSetLoadedTrue = 1 ∧
        (∀ b, Event.setLoaded b ∈ resSimple.trace → b = true) ∧
        (∀ b, Event.setLoaded b ∉ (loadWidget 0 ⟨"w", false, true, true⟩ RegState.init).1) ∧
        (∀ b, Event.setLoaded b ∉ (removeWidgetFromApp envSimple "1" "w").1)) :=
  ⟨by rfl,
    c3_load_signal_single_transition envSimple resSimple (by rfl)
      0 ⟨"w", false, true, true⟩ RegState.init "1" "w"⟩

theorem c9_factory_failure_isolated_witness :
    (loadWidget 0 ⟨"bad", false, false, true⟩ RegState.init).2 = RegState.init ∧
      Event.alertDanger dangerMsgB ∈ (loadWidget 0 ⟨"bad", false, false, true⟩ RegState.init).1 := by
  have := c9_factory_failure_isolated 0 ⟨"bad", false, false, true⟩ RegState.init (by decide)
  exact ⟨this.1, this.2.1⟩

/-- Claim C10: a falsy (empty-string) identifier in the resolved set is
skipped entirely — its loop iteration emits nothing, no manifest or
entry import is attempted for it anywhere in the run, no warning is
surfaced for it, and it is never marked for removal — while it still
counts toward the total shown in the progress message, which is the
length of the identifier list containing it. -/
theorem c10_falsy_identifier_skipped (env : Env) (res : LoadResult)
    (h : loadRuntimeWidgets env = Except.ok res)
    (hmem : "" ∈ res.contextPaths) :
    (∀ total counter, importStep env total counter "" = ⟨[], counter, [], []⟩) ∧
      (∀ b, Event.manifestImport "" b ∉ res.trace) ∧
      (∀ b, Event.entryImport "" b ∉ res.trace) ∧
      Event.consoleError "manifest" "" ∉ res.trace ∧
      Event.consoleError "module" "" ∉ res.trace ∧
      "" ∉ res.cleanup ∧
      (∀ c t, Event.progress c t ∈ res.trace → t = res.contextPaths.length) := by
  obtain ⟨app, happ, rfl⟩ := loadRuntimeWidgets_ok_inv env res h
  have hclean : ∀ c ∈ (loadRun env app).cleanup, c ≠ "" := by
    intro c hc
    exact (importPhase_cleanup_char env _ _ _ c hc).2.1
  have hconsole : ∀ tag, tag = "manifest" ∨ tag = "module" →
      Event.consoleError tag "" ∉ (loadRun env app).trace := by
    intro tag htag hb
    rcases loadRun_mem_inv env app _ hb with hc | hc | hc | hc | hc | hc | hc | hc | hc | hc
    · have := importPhase_evCp env _ _ _ _ hc "" rfl
      exact this.2 rfl
    · have := extractPhase_console_tag _ _ hc tag "" rfl
      rcases htag with rfl | rfl <;> simp at this
    · have := registerPhase_console_tag _ _ _ hc tag "" rfl
      rcases htag with rfl | rfl <;> simp at this
    · have := cleanupPhase_shape _ _ _ hc
      simp [cleanupShape] at this
    all_goals exact Event.noConfusion hc
  refine ⟨fun total counter => importStep_empty env total counter, ?_, ?_, ?_, ?_, ?_, ?_⟩
  · intro b hb
    have hin := loadRun_import_only env app _ hb rfl
    have := importPhase_evCp env _ _ _ _ hin "" rfl
    exact this.2 rfl
  · intro b hb
    have hin := loadRun_import_only env app _ hb rfl
    have := importPhase_evCp env _ _ _ _ hin "" rfl
    exact this.2 rfl
  · exact hconsole "manifest" (Or.inl rfl)
  · exact hconsole "module" (Or.inr rfl)
  · exact fun hf => hclean "" hf rfl
  · intro c t ht
    have hin := loadRun_progress_only env app _ ht rfl
    exact importPhase_progress_total env _ _ _ _ hin c t rfl

theorem c10_falsy_identifier_skipped_witness :
    loadRuntimeWidgets envC10 = Except.ok resC10 ∧ "" ∈ resC10.contextPaths ∧
      ((∀ total counter, importStep envC10 total counter "" = ⟨[], counter, [], []⟩) ∧
        (∀ b, Event.manifestImport "" b ∉ resC10.trace) ∧
        (∀ b, Event.entryImport "" b ∉ resC10.trace) ∧
        Event.consoleError "manifest" "" ∉ resC10.trace ∧
        Event.consoleError "module" "" ∉ resC10.trace ∧
        "" ∉ resC10.cleanup ∧
        (∀ c t, Event.progress c t ∈ resC10.trace → t = resC10.contextPaths.length)) :=
  ⟨by rfl, by decide,
    c10_falsy_identifier_skipped envC10 resC10 (by rfl) (by decide)⟩

/-- Claim C8: application resolution tries a `PRIVATE` application on the
current context path first, then any application on that path, and the
whole batch fails with the application-not-found error exactly when no
application matches the path; on success the resolved identifier set is
the duplicate-free union (first occurrences kept) of the application
record's `widgetContextPaths` and the matching runtime-context record's
`widgetContextPaths`. -/
theorem c8_app_resolution_and_union (env : Env) :
    (loadRuntimeWidgets env = Except.error LoadError.applicationNotFound ↔
      ∀ a ∈ env.appList, a.contextPath ≠ env.currentContextPath) ∧
      (∀ res, loadRuntimeWidgets env = Except.ok res →
        ∃ app, resolveApp env = some app ∧ app ∈ env.appList ∧
          app.contextPath = env.currentContextPath ∧
          (app.availability = "PRIVATE" ∨
            ∀ b ∈ env.appList, b.contextPath = env.currentContextPath →
              b.availability ≠ "PRIVATE") ∧
          res.contextPaths =
            jsSetDedup (app.widgetContextPaths.getD [] ++ runRtcPaths env app) ∧
          res.contextPaths.Nodup ∧
          (∀ x, x ∈ res.contextPaths ↔
            x ∈ app.widgetContextPaths.getD [] ∨ x ∈ runRtcPaths env app)) := by
  constructor
  · cases happ : resolveApp env with
    | none =>
      simp only [loadRuntimeWidgets, happ]
      constructor
      · intro _
        exact (resolveApp_none_iff env).mp happ
      · intro _
        trivial
    | some app =>
      simp only [loadRuntimeWidgets, happ]
      constructor
      · intro hco
        exact Except.noConfusion hco
      · intro hall
        have hnone : resolveApp env = none := (resolveApp_none_iff env).mpr hall
        rw [happ] at hnone
        exact Option.noConfusion hnone
  · intro res hres
    obtain ⟨app, happ, rfl⟩ := loadRuntimeWidgets_ok_inv env res hres
    obtain ⟨hmem, hpath, hpriv⟩ := resolveApp_some env app happ
    refine ⟨app, happ, hmem, hpath, hpriv, rfl, jsSetDedup_nodup _, ?_⟩
    intro x
    have hcps : (loadRun env app).contextPaths =
        jsSetDedup (app.widgetContextPaths.getD [] ++ runRtcPaths env app) := rfl
    rw [hcps, jsSetDedup_mem, List.mem_append]

theorem c8_app_resolution_and_union_witness :
    ((loadRuntimeWidgets envSimple = Except.error LoadError.applicationNotFound ↔
      ∀ a ∈ envSimple.appList, a.contextPath ≠ envSimple.currentContextPath)) ∧
      (∃ app, resolveApp envSimple = some app ∧ app ∈ envSimple.appList ∧
        app.contextPath = envSimple.currentContextPath ∧
        (app.availability = "PRIVATE" ∨
          ∀ b ∈ envSimple.appList, b.contextPath = envSimple.currentContextPath →
            b.availability ≠ "PRIVATE") ∧
        resSimple.contextPaths =
          jsSetDedup (app.widgetContextPaths.getD [] ++ runRtcPaths envSimple app) ∧
        resSimple.contextPaths.Nodup ∧
        (∀ x, x ∈ resSimple.contextPaths ↔
          x ∈ app.widgetContextPaths.getD [] ∨ x ∈ runRtcPaths envSimple app)) :=
  ⟨(c8_app_resolution_and_union envSimple).1,
    (c8_app_resolution_and_union envSimple).2 resSimple (by rfl)⟩

theorem extractModule_all_nonqualifying (cp : String) :
    ∀ m : JsModule, (∀ p ∈ m, p.2.isNgModule = false) →
      extractModule cp m = (m.map (fun p => Event.extractScan cp p.1 false), []) := by
  intro m
  induction m with
  | nil => intro _; rfl
  | cons p rest ih =>
    intro hall
    obtain ⟨key, obj⟩ := p
    have hobj : obj.isNgModule = false := hall (key, obj) (List.mem_cons_self _ _)
    have hrest : ∀ q ∈ rest, q.2.isNgModule = false :=
      fun q hq => hall q (List.mem_cons_of_mem _ hq)
    simp [extractModule, extractObj, hobj, ih hrest]

theorem cleanupPhase_nil (rtc : Option RuntimeContextRec) :
    cleanupPhase rtc [] = ([], none) := by
  unfold cleanupPhase
  cases rtc with
  | none => rfl
  | some r =>
    cases hr : r.widgetContextPaths with
    | none => simp [hr]
    | some ps => simp [hr, spliceAll]

/-- Claim C7, counterexample: in the scenario the claim describes — identifier
set `["a"]`, successful import, zero qualifying descriptors — the run
completes with `isLoaded` true, empty factories and an unchanged
runtime context, but NO warning of any kind is surfaced or logged,
refuting the claim's "a warning is surfaced to the user". -/
theorem c7_zero_descriptors_counterexample :
    envC7.manifestOk "a" = true ∧
      (∃ m, envC7.entryImport "a" = some m ∧ m.all (fun p => !p.2.isNgModule)) ∧
      (loadRuntimeWidgets envC7).toOption.map
          (fun r => (r.contextPaths, r.isLoaded, r.factories, r.update,
            r.trace.countP isWarningEv)) =
        some (["a"], true, [], none, 0) := by
  refine ⟨rfl, ⟨[("k", ⟨false, none⟩), ("c", ⟨false, none⟩)], rfl, rfl⟩, by rfl⟩

/-- Claim C7, amended: if the identifier set is `["a"]` and bundle
`"a"` loads successfully but the extractor finds zero exported values
qualifying as module descriptors, then `loadRuntimeWidgets` completes,
`isLoaded$` becomes true, the `widgetFactories` table is empty, NO
warning is surfaced or logged (non-qualifying exports are ignored
silently), and the RuntimeContext record is left unchanged. -/
theorem c7_zero_descriptors_amended (env : Env) (res : LoadResult)
    (h : loadRuntimeWidgets env = Except.ok res)
    (hcps : res.contextPaths = ["a"])
    (hman : env.manifestOk "a" = true)
    (m : JsModule) (himp : env.entryImport "a" = some m)
    (hnone : ∀ p ∈ m, p.2.isNgModule = false) :
    res.isLoaded = true ∧ res.factories = [] ∧ res.update = none ∧
      res.cleanup = [] ∧
      (∀ e ∈ res.trace, isWarningEv e = false) := by
  obtain ⟨app, happ, rfl⟩ := loadRuntimeWidgets_ok_inv env res h
  have hrun : runContextPaths env app = ["a"] := hcps
  have himp2 : runImport env app =
      ⟨[Event.progress 1 1, Event.manifestImport "a" true, Event.entryImport "a" true],
        1, [("a", m)], []⟩ := by
    unfold runImport
    rw [hrun]
    simp [importPhase, importStep, hman, himp]
  have hext : runExtract env app =
      (m.map (fun p => Event.extractScan "a" p.1 false), []) := by
    unfold runExtract
    rw [himp2]
    show extractPhase [("a", m)] = _
    simp [extractPhase, extractModule_all_nonqualifying "a" m hnone]
  have hreg : runRegister env app = ([], RegState.init) := by
    unfold runRegister
    rw [hext]
    rfl
  have hcln : runCleanup env app = ([], none) := by
    unfold runCleanup
    rw [himp2]
    exact cleanupPhase_nil _
  refine ⟨rfl, ?_, ?_, ?_, ?_⟩
  · show (runRegister env app).2.factories = []
    rw [hreg]
    rfl
  · show (runCleanup env app).2 = none
    rw [hcln]
  · show (runImport env app).cleanup = []
    rw [himp2]
  · intro e he
    rcases loadRun_mem_inv env app e he with hc | hc | hc | hc | hc | hc | hc | hc | hc | hc
    · rw [himp2] at hc
      simp only [List.mem_cons, List.not_mem_nil, or_false] at hc
      rcases hc with rfl | rfl | rfl <;> rfl
    · rw [hext] at hc
      simp only [List.mem_map] at hc
      obtain ⟨p, _, hp⟩ := hc
      rw [← hp]
      rfl
    · rw [hreg] at hc
      simp at hc
    · rw [hcln] at hc
      simp at hc
    all_goals subst hc
    all_goals rfl

theorem c7_zero_descriptors_amended_witness :
    ∃ res, loadRuntimeWidgets envC7 = Except.ok res ∧
      res.contextPaths = ["a"] ∧
      (res.isLoaded = true ∧ res.factories = [] ∧ res.update = none ∧
        res.cleanup = [] ∧ (∀ e ∈ res.trace, isWarningEv e = false)) := by
  refine ⟨loadRun envC7 ⟨"1", "app", "PRIVATE", some ["a"]⟩, by rfl, by rfl, ?_⟩
  exact c7_zero_descriptors_amended envC7 _ (by rfl) (by rfl) (by rfl)
    [("k", ⟨false, none⟩), ("c", ⟨false, none⟩)] rfl (by decide)

/-- Claim C6, counterexample: with identifier list `["a", "b"]`, the
manifest load of `"b"` (trace index 5) happens before any extraction or
activation event has occurred (none among the first five events), yet
`"a"` does have a module that gets activated later in the run — so
`"a"`'s extraction and activation are NOT completed before work on the
next identifier begins. -/
theorem c6_sequential_counterexample :
    (loadRuntimeWidgets envC6).toOption.map
        (fun r => (r.contextPaths, r.trace.get? 5,
          (r.trace.take 5).countP isActivationEv,
          r.trace.countP (fun e => decide (e = Event.activate "a" "k" true)))) =
      some (["a", "b"], some (Event.manifestImport "b" true), 0, 1) := by rfl

/-- Claim C6, amended: within one batch, identifiers' manifest resolution and
entry-module import are processed strictly sequentially in list order —
the import-loop trace decomposes into consecutive per-identifier blocks
following the identifier list — while plugin extraction and module
activation happen in a later phase, after every identifier's import has
been attempted: no extraction or activation event precedes any
manifest/entry import event. -/
theorem c6_imports_sequential_activation_later (env : Env) (res : LoadResult)
    (h : loadRuntimeWidgets env = Except.ok res) :
    ∃ tImp tRest : List Event,
      res.trace = Event.progressText msgLoading :: tImp ++ tRest ∧
      (∀ e ∈ tImp, isActivationEv e = false) ∧
      (∀ e ∈ tRest, isImportEv e = false) ∧
      (∃ blocks : List (List Event), tImp = blocks.flatten ∧
        List.Forall₂ (fun cp block => ∀ e ∈ block, ∀ c, importEvCp e = some c → c = cp)
          res.contextPaths blocks) := by
  obtain ⟨app, happ, rfl⟩ := loadRuntimeWidgets_ok_inv env res h
  refine ⟨(runImport env app).trace,
    [Event.progressText msgStillWorking] ++ (runExtract env app).1
      ++ [Event.staticRegistryNonempty, Event.progressText msgAlmostReady]
      ++ (runRegister env app).1
      ++ [Event.progressClose, Event.setLoaded true] ++ (runCleanup env app).1,
    ?_, ?_, ?_, ?_⟩
  · simp [loadRun, List.append_assoc]
  · intro e he
    exact (importShape_bridge e (importPhase_shape env _ _ _ e he)).2.1
  · intro e he
    simp only [List.mem_append, List.mem_cons, List.not_mem_nil, or_false] at he
    repeat' rcases he with he | he
    all_goals first
      | rfl
      | (subst he; rfl)
      | exact (extractShape_bridge e (extractPhase_shape _ e he)).2.1
      | exact (registerShape_bridge e (registerPhase_shape _ _ e he)).2.1
      | exact (cleanupShape_bridge e (cleanupPhase_shape _ _ e he)).2.1
  · obtain ⟨blocks, h1, h2⟩ := importPhase_blocks env
      (runContextPaths env app).length (runContextPaths env app) 0
    exact ⟨blocks, h1, h2⟩

theorem c6_imports_sequential_activation_later_witness :
    loadRuntimeWidgets envC6 = Except.ok resC6 ∧
      (∃ tImp tRest : List Event,
        resC6.trace = Event.progressText msgLoading :: tImp ++ tRest ∧
        (∀ e ∈ tImp, isActivationEv e = false) ∧
        (∀ e ∈ tRest, isImportEv e = false) ∧
        (∃ blocks : List (List Event), tImp = blocks.flatten ∧
          List.Forall₂ (fun cp block =>
              ∀ e ∈ block, ∀ c, importEvCp e = some c → c = cp)
            resC6.contextPaths blocks)) :=
  ⟨by rfl, c6_imports_sequential_activation_later envC6 resC6 (by rfl)⟩

/-- Claim C5: in every completed run, no component definition is fed to
`loadWidget` before the event recording that the host's built-in
component registry reports at least one entry, and the `setLoaded true`
transition is emitted only after every collected definition has been fed
through `loadWidget`. -/
theorem c5_registration_after_gate_before_signal (env : Env) (res : LoadResult)
    (h : loadRuntimeWidgets env = Except.ok res) :
    ∃ t1 t2 t3 : List Event,
      res.trace = t1 ++ Event.staticRegistryNonempty :: t2 ++ Event.setLoaded true :: t3 ∧
      (∀ i, Event.loadWidgetCall i ∉ t1) ∧
      (∀ i, Event.loadWidgetCall i ∉ t3) ∧
      (∀ inst ∈ res.modules, ∀ w ∈ flattenGroups inst.widgets,
        Event.loadWidgetCall w.id ∈ t2) := by
  obtain ⟨app, happ, rfl⟩ := loadRuntimeWidgets_ok_inv env res h
  refine ⟨Event.progressText msgLoading :: (runImport env app).trace
      ++ [Event.progressText msgStillWorking] ++ (runExtract env app).1,
    Event.progressText msgAlmostReady :: (runRegister env app).1 ++ [Event.progressClose],
    (runCleanup env app).1, ?_, ?_, ?_, ?_⟩
  · simp [loadRun, List.append_assoc]
  · intro i hi
    simp only [List.cons_append, List.mem_cons, List.mem_append, List.mem_singleton,
      List.not_mem_nil, or_false] at hi
    repeat' rcases hi with hi | hi
    all_goals first
      | exact Event.noConfusion hi
      | exact (importShape_bridge _ (importPhase_shape env _ _ _ _ hi)).2.2 i rfl
      | exact (extractShape_bridge _ (extractPhase_shape _ _ hi)).2.2.2 i rfl
  · intro i hi
    exact (cleanupShape_bridge _ (cleanupPhase_shape _ _ _ hi)).2.2.2.2 i rfl
  · intro inst hinst w hw
    exact List.mem_cons_of_mem _
      (List.mem_append_left _ (registerPhase_call_mem _ _ inst hinst w hw))

theorem c5_registration_after_gate_before_signal_witness :
    loadRuntimeWidgets envC6 = Except.ok resC6 ∧
      (∃ t1 t2 t3 : List Event,
        resC6.trace = t1 ++ Event.staticRegistryNonempty :: t2
            ++ Event.setLoaded true :: t3 ∧
        (∀ i, Event.loadWidgetCall i ∉ t1) ∧
        (∀ i, Event.loadWidgetCall i ∉ t3) ∧
        (∀ inst ∈ resC6.modules, ∀ w ∈ flattenGroups inst.widgets,
          Event.loadWidgetCall w.id ∈ t2)) :=
  ⟨by rfl, c5_registration_after_gate_before_signal envC6 resC6 (by rfl)⟩

theorem runRtcPaths_eq_of (env : Env) (app : Application) (r : RuntimeContextRec)
    (ps : List String) (hr : runRtc env app = some r)
    (hw : r.widgetContextPaths = some ps) : runRtcPaths env app = ps := by
  unfold runRtcPaths
  rw [hr]
  simp [hw]

theorem runRtcPaths_nil_of_none (env : Env) (app : Application)
    (hr : runRtc env app = none) : runRtcPaths env app = [] := by
  unfold runRtcPaths
  rw [hr]

theorem runRtcPaths_nil_of_paths_none (env : Env) (app : Application)
    (r : RuntimeContextRec) (hr : runRtc env app = some r)
    (hw : r.widgetContextPaths = none) : runRtcPaths env app = [] := by
  unfold runRtcPaths
  rw [hr]
  simp [hw]

theorem finalPaths_loadRun (env : Env) (app : Application) :
    finalPaths (loadRun env app) =
      match (runCleanup env app).2 with
      | some (_, ps) => ps
      | none => runRtcPaths env app := rfl

theorem runCleanup_eq (env : Env) (app : Application) :
    runCleanup env app =
      cleanupPhase (runRtc env app) (runImport env app).cleanup := rfl

theorem cleanupPhase_snd_none (rtc : Option RuntimeContextRec) (cl : List String)
    (r : RuntimeContextRec) (ps : List String) (hr : rtc = some r)
    (hw : r.widgetContextPaths = some ps)
    (hsp : (spliceAll ps cl).2 = false) :
    (cleanupPhase rtc cl).2 = none := by
  subst hr
  unfold cleanupPhase
  cases hsp2 : spliceAll ps cl with
  | mk newPaths flag =>
    rw [hsp2] at hsp
    simp at hsp
    subst hsp
    simp [hw, hsp2]

theorem cleanupPhase_snd_some (rtc : Option RuntimeContextRec) (cl : List String)
    (r : RuntimeContextRec) (ps : List String) (hr : rtc = some r)
    (hw : r.widgetContextPaths = some ps)
    (hsp : (spliceAll ps cl).2 = true) :
    (cleanupPhase rtc cl).2 = some (r.id, (spliceAll ps cl).1) := by
  subst hr
  unfold cleanupPhase
  cases hsp2 : spliceAll ps cl with
  | mk newPaths flag =>
    rw [hsp2] at hsp
    simp at hsp
    subst hsp
    simp [hw, hsp2]

theorem cleanupPhase_snd_none_trivial (rtc : Option RuntimeContextRec)
    (cl : List String)
    (h : rtc = none ∨ ∃ r, rtc = some r ∧ r.widgetContextPaths = none) :
    (cleanupPhase rtc cl).2 = none := by
  rcases h with rfl | ⟨r, rfl, hw⟩
  · rfl
  · unfold cleanupPhase
    simp [hw]

theorem final_not_mem_of_cleanup (env : Env) (app : Application) (cp : String)
    (hnd : (runRtcPaths env app).Nodup)
    (hcl : cp ∈ (runImport env app).cleanup) :
    cp ∉ finalPaths (loadRun env app) := by
  rw [finalPaths_loadRun, runCleanup_eq]
  cases hr : runRtc env app with
  | none =>
    rw [cleanupPhase_snd_none_trivial none _ (Or.inl rfl)]
    rw [runRtcPaths_nil_of_none env app hr]
    simp
  | some r =>
    cases hw : r.widgetContextPaths with
    | none =>
      rw [cleanupPhase_snd_none_trivial (some r) _ (Or.inr ⟨r, rfl, hw⟩)]
      rw [runRtcPaths_nil_of_paths_none env app r hr hw]
      simp
    | some ps =>
      have hnd' : ps.Nodup := by
        rw [runRtcPaths_eq_of env app r ps hr hw] at hnd
        exact hnd
      cases hflag : (spliceAll ps (runImport env app).cleanup).2 with
      | true =>
        rw [cleanupPhase_snd_some (some r) _ r ps rfl hw hflag]
        exact spliceAll_not_mem _ _ cp hnd' hcl
      | false =>
        rw [cleanupPhase_snd_none (some r) _ r ps rfl hw hflag]
        rw [runRtcPaths_eq_of env app r ps hr hw]
        intro hps
        have := spliceAll_flag (runImport env app).cleanup ps cp hcl hps
        rw [hflag] at this
        exact Bool.noConfusion this

theorem final_mem_of_not_cleanup (env : Env) (app : Application) (cp : String)
    (hcl : cp ∉ (runImport env app).cleanup)
    (hmem : cp ∈ runRtcPaths env app) :
    cp ∈ finalPaths (loadRun env app) := by
  rw [finalPaths_loadRun, runCleanup_eq]
  cases hr : runRtc env app with
  | none =>
    rw [cleanupPhase_snd_none_trivial none _ (Or.inl rfl)]
    exact hmem
  | some r =>
    cases hw : r.widgetContextPaths with
    | none =>
      rw [cleanupPhase_snd_none_trivial (some r) _ (Or.inr ⟨r, rfl, hw⟩)]
      exact hmem
    | some ps =>
      have hps : cp ∈ ps := by
        rw [runRtcPaths_eq_of env app r ps hr hw] at hmem
        exact hmem
      cases hflag : (spliceAll ps (runImport env app).cleanup).2 with
      | true =>
        rw [cleanupPhase_snd_some (some r) _ r ps rfl hw hflag]
        exact spliceAll_mem_preserved _ _ cp hcl hps
      | false =>
        rw [cleanupPhase_snd_none (some r) _ r ps rfl hw hflag]
        exact hmem

/-- Claim C1, counterexample: identifiers `"w"` (a known application has that
context path) and `"gone"` (none does) both fail their manifest import.
The run surfaces NO user-visible warning at all — `"w"`'s failure is
only written to the console, and `"gone"`'s failure is not logged
anywhere yet `"gone"` is still removed — refuting the claim's "the
failure is logged ... skipped with a surfaced warning". -/
theorem c1_manifest_failure_counterexample :
    envC1.manifestOk "w" = false ∧ envC1.manifestOk "gone" = false ∧
      envC1.appList.any (fun a => a.contextPath == "w") = true ∧
      envC1.appList.any (fun a => a.contextPath == "gone") = false ∧
      (loadRuntimeWidgets envC1).toOption.map
          (fun r => (r.contextPaths, r.trace.countP isDangerEv,
            r.trace.filter isConsoleEv, r.cleanup, r.update)) =
        some (["w", "gone"], 0, [Event.consoleError "manifest" "w"],
          ["gone"], some ("r1", [])) :=
  ⟨rfl, rfl, rfl, rfl, by rfl⟩

/-- Claim C1, amended: for every nonempty identifier of a completed run whose
manifest import fails: if no application has that context path, the
identifier is pushed onto the cleanup list without any logging or
user-visible warning (its loop iteration emits only the progress update
and the failed import) and is absent from the persisted RuntimeContext
identifier list at the end of the run; if an application with that path
does exist, the failure is logged to the console only — no user-visible
alert — and the identifier is not marked for cleanup and, when present,
remains in the RuntimeContext list; in either case every other
identifier of the batch is still processed. -/
theorem c1_manifest_failure_classification (env : Env) (res : LoadResult)
    (h : loadRuntimeWidgets env = Except.ok res)
    (cp : String) (hmem : cp ∈ res.contextPaths) (hne : cp ≠ "")
    (hfail : env.manifestOk cp = false) (hnd : res.rtcPaths.Nodup) :
    (env.appList.any (fun a => a.contextPath == cp) = false →
      cp ∈ res.cleanup ∧ cp ∉ finalPaths res ∧
      (∀ total counter, (importStep env total counter cp).trace =
        [Event.progress (counter + 1) total, Event.manifestImport cp false])) ∧
      (env.appList.any (fun a => a.contextPath == cp) = true →
        Event.consoleError "manifest" cp ∈ res.trace ∧
        cp ∉ res.cleanup ∧
        (cp ∈ res.rtcPaths → cp ∈ finalPaths res) ∧
        (∀ total counter, (importStep env total counter cp).trace =
          [Event.progress (counter + 1) total, Event.manifestImport cp false,
            Event.consoleError "manifest" cp])) ∧
      (∀ cp' ∈ res.contextPaths, cp' ≠ "" →
        Event.manifestImport cp' (env.manifestOk cp') ∈ res.trace) := by
  obtain ⟨app, happ, rfl⟩ := loadRuntimeWidgets_ok_inv env res h
  refine ⟨?_, ?_, ?_⟩
  · intro hnone
    have hcl : cp ∈ (runImport env app).cleanup :=
      importPhase_cleanup_mem env _ _ 0 cp hmem hne hfail hnone
    refine ⟨hcl, final_not_mem_of_cleanup env app cp hnd hcl, ?_⟩
    intro total counter
    rw [importStep_unknown_fail env total counter cp hne hfail hnone]
  · intro hsome
    have hncl : cp ∉ (runImport env app).cleanup := by
      intro hcl
      have := (importPhase_cleanup_char env _ _ _ cp hcl).2.2.2
      rw [hsome] at this
      exact Bool.noConfusion this
    refine ⟨?_, hncl, fun hrt => final_mem_of_not_cleanup env app cp hncl hrt, ?_⟩
    · obtain ⟨c, hc⟩ := importPhase_step_subset env
        (runContextPaths env app).length (runContextPaths env app) 0 cp hmem
    -- the known-application failure branch emits the console error
      apply loadRun_mem_of_import env app
      apply hc
      rw [importStep_known_fail env _ c cp hne hfail hsome]
      simp
    · intro total counter
      rw [importStep_known_fail env total counter cp hne hfail hsome]
  · intro cp' hmem' hne'
    exact loadRun_mem_of_import env app _
      (importPhase_manifest_mem env _ _ 0 cp' hmem' hne')

theorem c1_manifest_failure_classification_witness :
    loadRuntimeWidgets envC1 = Except.ok resC1 ∧
      "gone" ∈ resC1.contextPaths ∧ envC1.manifestOk "gone" = false ∧
      resC1.rtcPaths.Nodup ∧
      envC1.appList.any (fun a => a.contextPath == "gone") = false ∧
      ("gone" ∈ resC1.cleanup ∧ "gone" ∉ finalPaths resC1 ∧
        (∀ total counter, (importStep envC1 total counter "gone").trace =
          [Event.progress (counter + 1) total, Event.manifestImport "gone" false])) :=
  ⟨by rfl, by decide, rfl, by decide, rfl,
    (c1_manifest_failure_classification envC1 resC1 (by rfl) "gone" (by decide)
      (by decide) rfl (by decide)).1 rfl⟩

end RuntimeWidgetLoader
